import Mathlib

/-!
Shallow embedding of the Aviratha chatbot document service
(`flask_app_clean.py` and `streamlit_admin_dashboard.py`).

Python strings are modelled as `List Char`; the SQLite tables `documents`
and `sessions` are modelled as Lean lists of records; HTTP status codes are
natural numbers; fresh UUIDs and timestamps are explicit parameters.
Results of calls into external libraries (PyPDF2 page extraction, file
reads) are inputs of the model, since those libraries are not part of the
repository; everything the repository's own code does with those results is
translated directly from the source.
-/

/-- Python whitespace characters: the default separator set of `str.split()`
and `str.strip()`. -/
def isPyWs (c : Char) : Bool :=
  c == ' ' || c == '\t' || c == '\n' || c == '\r' || c == '\x0b' || c == '\x0c'

/-- Python `content.replace('\r\n', '\n')` (first line of `clean_content`):
left-to-right, non-overlapping replacement of the two-character pattern. -/
def replaceCRLF : List Char → List Char
  | [] => []
  | [c] => [c]
  | c :: d :: rest =>
    if c = '\r' ∧ d = '\n' then '\n' :: replaceCRLF rest
    else c :: replaceCRLF (d :: rest)

/-- Python `content.replace('\n\n\n', '\n\n')` (second line of
`clean_content`): left-to-right, non-overlapping replacement of the
three-character pattern. -/
def replaceTripleNL : List Char → List Char
  | [] => []
  | [a] => [a]
  | [a, b] => [a, b]
  | a :: b :: c :: rest =>
    if a = '\n' ∧ b = '\n' ∧ c = '\n' then '\n' :: '\n' :: replaceTripleNL rest
    else a :: replaceTripleNL (b :: c :: rest)

/-- One character step of the grouping underlying Python `str.split()`:
a whitespace character opens a new (possibly empty) group, any other
character is prepended to the current head group. -/
def splitStep (c : Char) (acc : List (List Char)) : List (List Char) :=
  if isPyWs c then [] :: acc
  else
    match acc with
    | [] => [[c]]
    | w :: ws => (c :: w) :: ws

/-- Grouping pass of Python `str.split()` (may contain empty groups). -/
def splitGroups (s : List Char) : List (List Char) :=
  s.foldr splitStep []

/-- Python `str.split()` with no arguments: split on runs of whitespace,
discarding empty pieces. -/
def pySplit (s : List Char) : List (List Char) :=
  (splitGroups s).filter (fun w => !w.isEmpty)

/-- Python `' '.join(words)`. -/
def joinSpace : List (List Char) → List Char
  | [] => []
  | [w] => w
  | w :: ws => w ++ ' ' :: joinSpace ws

/-- Python `str.strip()` with no arguments: drop leading and trailing
whitespace. -/
def pyStrip (s : List Char) : List Char :=
  (((s.dropWhile isPyWs).reverse).dropWhile isPyWs).reverse

/-- Embedding of `clean_content` (flask_app_clean.py, lines 86-91):
`content.replace('\r\n','\n')`, then `content.replace('\n\n\n','\n\n')`,
then `' '.join(content.split())`, then `.strip()`. -/
def clean_content (s : List Char) : List Char :=
  pyStrip (joinSpace (pySplit (replaceTripleNL (replaceCRLF s))))

/-- Python `s.rsplit(sep, 1)`: the first component is everything before the
last occurrence of `sep` (the whole string if `sep` is absent), the second
is `some` of everything after the last occurrence (or `none`). -/
def rsplit1 (sep : Char) (s : List Char) : List Char × Option (List Char) :=
  match (s.reverse).dropWhile (fun c => c != sep) with
  | [] => (s, none)
  | _ :: pre => (pre.reverse, some ((s.reverse).takeWhile (fun c => c != sep)).reverse)

/-- Python `str.replace(old, new)` specialised to single characters, as used
by `generate_title`. -/
def replaceChar (old new : Char) (s : List Char) : List Char :=
  s.map (fun c => if c = old then new else c)

/-- Embedding of `generate_title` (flask_app_clean.py, lines 93-97):
`filename.rsplit('.', 1)[0].replace('_', ' ').replace('-', ' ')` truncated
with `[:100]`.  The `content` argument is accepted and ignored, as in the
source. -/
def generate_title (filename content : List Char) : List Char :=
  (replaceChar '-' ' ' (replaceChar '_' ' ' (rsplit1 '.' filename).fst)).take 100

/-- Python `str.lower()` (ASCII data in this code base). -/
def pyLower (s : List Char) : List Char :=
  s.map Char.toLower

/-- The extension whitelist of flask_app_clean.py (line 19). -/
def ALLOWED_EXTENSIONS : List (List Char) :=
  ["pdf".data, "txt".data, "md".data]

/-- Embedding of `allowed_file` (flask_app_clean.py, lines 58-60):
`'.' in filename and filename.rsplit('.', 1)[1].lower() in ALLOWED_EXTENSIONS`. -/
def allowed_file (filename : List Char) : Bool :=
  filename.contains '.' &&
    (match (rsplit1 '.' filename).snd with
     | some ext => ALLOWED_EXTENSIONS.contains (pyLower ext)
     | none => false)

deriving instance DecidableEq for Except

/-- Model of a PDF file as PyPDF2 presents it to this repository's code.
`is_encrypted` mirrors `reader.is_encrypted`; `pages` holds the per-page
outcomes of `page.extract_text()` — `Except.ok t` when the call returns the
text `t` (possibly empty) and `Except.error e` when it raises with message
`e`.  PyPDF2 itself is external to the repository, so these outcomes are
inputs of the model; what the repository's code does with them is translated
from the source. -/
structure PdfFile where
  is_encrypted : Bool
  pages : List (Except (List Char) (List Char))
  deriving DecidableEq

/-- The page loop of `process_pdf` (flask_app_clean.py, lines 67-69):
`text += page.extract_text() + "\n"` with no per-page try/except, so the
first page whose extraction raises aborts the whole loop with that error. -/
def pdfPagesText : List (Except (List Char) (List Char)) → Except (List Char) (List Char)
  | [] => Except.ok []
  | Except.error e :: _ => Except.error e
  | Except.ok t :: ps =>
    match pdfPagesText ps with
    | Except.error e => Except.error e
    | Except.ok rest => Except.ok (t ++ '\n' :: rest)

/-- Embedding of `process_pdf` (flask_app_clean.py, lines 62-76).  The
source contains no check of `is_encrypted` — the whole body is one
try/except whose handler wraps any raised message in
"Failed to process PDF: ", including the "No text content extracted from
PDF" raise from inside the try block. -/
def process_pdf (pdf : PdfFile) : Except (List Char) (List Char) :=
  match pdfPagesText pdf.pages with
  | Except.error e => Except.error (("Failed to process PDF: ".data) ++ e)
  | Except.ok text =>
    if (pyStrip text).isEmpty then
      Except.error ("Failed to process PDF: No text content extracted from PDF".data)
    else Except.ok (pyStrip text)

/-- Embedding of `process_text` (flask_app_clean.py, lines 78-84): the raw
file-read outcome is an input of the model; on success the text is
stripped, on failure the raised message is wrapped. -/
def process_text (read : Except (List Char) (List Char)) : Except (List Char) (List Char) :=
  match read with
  | Except.error e => Except.error (("Failed to process text file: ".data) ++ e)
  | Except.ok t => Except.ok (pyStrip t)

/-- The sentinel string returned by the dashboard extractor for encrypted
PDFs (streamlit_admin_dashboard.py, line 45). -/
def ENCRYPTED_PDF_MSG : List Char :=
  "[This PDF is encrypted and cannot be read without a password]".data

/-- Rendering of a single page inside `extract_pdf_text`
(streamlit_admin_dashboard.py, lines 48-53): a raising page contributes an
error marker, an empty page contributes "[Empty page]", a non-empty page
contributes its text followed by a newline. -/
def renderPage : Except (List Char) (List Char) → List Char
  | Except.error e => ("[Error extracting page: ".data) ++ e ++ ("]\n".data)
  | Except.ok t => if t.isEmpty then ("[Empty page]\n".data) else t ++ ['\n']

/-- The page loop of `extract_pdf_text`. -/
def pagesRender : List (Except (List Char) (List Char)) → List Char
  | [] => []
  | p :: ps => renderPage p ++ pagesRender ps

/-- Embedding of `extract_pdf_text` (streamlit_admin_dashboard.py,
lines 38-61): if the reader reports encryption the fixed sentinel message is
returned before the page loop runs; otherwise every page is rendered. -/
def extract_pdf_text (pdf : PdfFile) : List Char :=
  if pdf.is_encrypted then ENCRYPTED_PDF_MSG
  else pagesRender pdf.pages

/-- A row of the `documents` table (flask_app_clean.py, lines 31-43).
`created_at` is the `CURRENT_TIMESTAMP` value as an abstract instant. -/
structure Document where
  id : String
  title : List Char
  content : List Char
  file_name : List Char
  file_type : List Char
  file_size : Nat
  uploaded_by : String
  is_public : Bool
  created_at : Nat
  deriving DecidableEq

/-- A row of the `sessions` table (flask_app_clean.py, lines 45-53).
`user_id` is `none` when the INSERT received Python `None`. -/
structure Session where
  session_id : String
  user_id : Option (List Char)
  preferences : List Char
  deriving DecidableEq

/-- Python truthiness of the decoded `userId` value (`if user_id:` at
flask_app_clean.py line 136): `None` and the empty string are falsy. -/
def truthyUserId : Option (List Char) → Bool
  | none => false
  | some u => !u.isEmpty

/-- Embedding of `create_session` (flask_app_clean.py, lines 124-165).
`fresh` stands for the `str(uuid.uuid4())` drawn when a new row is
inserted; the row lookup is `SELECT session_id FROM sessions WHERE
user_id = ?` followed by `fetchone()`, i.e. the first matching row. -/
def create_session (user_id : Option (List Char)) (preferences : List Char)
    (fresh : String) (sessions : List Session) : String × List Session :=
  if truthyUserId user_id then
    match sessions.find? (fun s => s.user_id == user_id) with
    | some s => (s.session_id, sessions)
    | none => (fresh, sessions ++ [⟨fresh, user_id, preferences⟩])
  else (fresh, sessions ++ [⟨fresh, user_id, preferences⟩])

/-- The session-existence lookup of `upload_file` (flask_app_clean.py,
line 181): `SELECT session_id FROM sessions WHERE session_id = ?`. -/
def sessionExists (sid : String) (sessions : List Session) : Bool :=
  sessions.any (fun s => s.session_id == sid)

/-- The WHERE clause of the `/documents` listing (flask_app_clean.py,
line 272): `uploaded_by = ? OR is_public = 1`. -/
def docVisible (sid : String) (d : Document) : Bool :=
  d.uploaded_by == sid || d.is_public

/-- The `ORDER BY created_at DESC` comparison of the `/documents` query. -/
def newerFirst (a b : Document) : Bool :=
  decide (b.created_at ≤ a.created_at)

/-- The successful payload of `GET /documents`: the row list plus the
`stats` object computed at flask_app_clean.py lines 293-296. -/
structure DocListResult where
  documents : List Document
  totalDocuments : Nat
  totalSize : Nat
  deriving DecidableEq

/-- Embedding of `get_documents` (flask_app_clean.py, lines 255-300), after
bearer-token extraction (`session_id` is `none` when the Authorization
header is missing or malformed).  The handler opens the database but never
queries the `sessions` table — the `sessions` argument is unused, exactly as
in the source; any present token proceeds to the SELECT. -/
def get_documents (session_id : Option String) (sessions : List Session)
    (docs : List Document) : Nat × Option DocListResult :=
  match session_id with
  | none => (401, none)
  | some sid =>
    let visible := (docs.filter (docVisible sid)).mergeSort newerFirst
    (200, some ⟨visible, visible.length, (visible.map Document.file_size).sum⟩)

/-- Embedding of `delete_document` (flask_app_clean.py, lines 329-364),
after bearer-token extraction.  The handler never queries the `sessions`
table (the `sessions` argument is unused, as in the source): it checks
`SELECT id FROM documents WHERE id = ? AND uploaded_by = ?` and on a miss
answers 404 leaving the table unchanged; on a hit it runs
`DELETE FROM documents WHERE id = ?`. -/
def delete_document (document_id : String) (session_id : Option String)
    (sessions : List Session) (docs : List Document) : Nat × List Document :=
  match session_id with
  | none => (401, docs)
  | some sid =>
    if docs.any (fun d => d.id == document_id && d.uploaded_by == sid) then
      (200, docs.filter (fun d => !(d.id == document_id)))
    else (404, docs)

/-- An upload request after HTTP decoding.  `session_id` is the extracted
bearer token; `filename` is the name after `secure_filename` (werkzeug is
external to the repository); `pdf` and `text_read` are the external
extraction inputs used when the extension selects that branch;
`save_doc_ok` is false when the database INSERT of `save_document` raises. -/
structure UploadReq where
  session_id : Option String
  has_file : Bool
  filename : List Char
  is_public_form : List Char
  pdf : PdfFile
  text_read : Except (List Char) (List Char)
  file_size : Nat
  save_doc_ok : Bool

/-- The `file_type` computation of `upload_file` (flask_app_clean.py,
line 210): `filename.rsplit('.', 1)[1].lower()`. -/
def uploadFileType (filename : List Char) : List Char :=
  pyLower ((rsplit1 '.' filename).snd.getD [])

/-- The extraction dispatch of `upload_file` (flask_app_clean.py,
lines 213-219): `process_pdf` for pdf, `process_text` for txt/md, `none`
for the unreachable unsupported-type branch. -/
def uploadExtract (req : UploadReq) : Option (Except (List Char) (List Char)) :=
  let ft := uploadFileType req.filename
  if ft == "pdf".data then some (process_pdf req.pdf)
  else if ft == "txt".data || ft == "md".data then some (process_text req.text_read)
  else none

/-- Observable outcome of one `upload_file` request.  `temp_written`
records whether `file.save(file_path)` ran; `temp_remains` records whether
the temporary file still exists when the response is returned (every
`os.remove(file_path)` in the source, including the one in the except
handler guarded by `os.path.exists`, clears it). -/
structure UploadOutcome where
  status : Nat
  error : Option (List Char)
  created : Option Document
  temp_written : Bool
  temp_remains : Bool
  deriving DecidableEq

/-- Embedding of `upload_file` (flask_app_clean.py, lines 167-253).
`fresh_doc_id` stands for the `str(uuid.uuid4())` drawn inside
`save_document`, `now` for `CURRENT_TIMESTAMP`.  Branches in source order:
missing token 401; unknown session 401; no file part / empty filename 400;
disallowed extension 400; then the temporary file is written; unsupported
type removes it and answers 400; a raising extractor propagates to the
except handler, which removes the file and answers 500; content shorter
than 100 after `clean_content` removes it and answers 400; a raising
`save_document` reaches the except handler likewise; success removes it
and answers 200 with the inserted document. -/
def upload_file (req : UploadReq) (sessions : List Session) (docs : List Document)
    (fresh_doc_id : String) (now : Nat) : UploadOutcome × List Document :=
  match req.session_id with
  | none =>
    (⟨401, some ("No session token provided".data), none, false, false⟩, docs)
  | some sid =>
    if ¬ sessionExists sid sessions then
      (⟨401, some ("Invalid session".data), none, false, false⟩, docs)
    else if ¬ req.has_file then
      (⟨400, some ("No file provided".data), none, false, false⟩, docs)
    else if req.filename.isEmpty then
      (⟨400, some ("No file selected".data), none, false, false⟩, docs)
    else if ¬ allowed_file req.filename then
      (⟨400, some ("File type not allowed".data), none, false, false⟩, docs)
    else
      let is_public := pyLower req.is_public_form == "true".data
      match uploadExtract req with
      | none =>
        (⟨400, some ("Unsupported file type".data), none, true, false⟩, docs)
      | some (Except.error e) =>
        (⟨500, some e, none, true, false⟩, docs)
      | some (Except.ok raw) =>
        let content := clean_content raw
        if content.length < 100 then
          (⟨400, some ("Document content is too short to be useful".data),
            none, true, false⟩, docs)
        else if ¬ req.save_doc_ok then
          (⟨500, some ("Database error".data), none, true, false⟩, docs)
        else
          let doc : Document :=
            ⟨fresh_doc_id, generate_title req.filename content, content,
              req.filename, uploadFileType req.filename, req.file_size, sid,
              is_public, now⟩
          (⟨200, none, some doc, true, false⟩, docs ++ [doc])

/-- Invariant of the word lists produced by `pySplit`: every word is
non-empty and free of whitespace characters. -/
def goodWords (ws : List (List Char)) : Prop :=
  ∀ w ∈ ws, w ≠ [] ∧ ∀ c ∈ w, isPyWs c = false

/-- Adjacent-character relation: not both spaces. -/
def noSpacePair (a b : Char) : Prop := ¬(a = ' ' ∧ b = ' ')

/-- Concrete document fixture: owned by session "A", 1200 bytes, created at
instant 1. -/
def docA : Document :=
  ⟨"d1", ("a".data), ("a".data), ("a.txt".data), ("txt".data), 1200, "A", false, 1⟩

/-- Concrete document fixture: owned by session "A", 3400 bytes, created at
instant 2. -/
def docB : Document :=
  ⟨"d2", ("b".data), ("b".data), ("b.txt".data), ("txt".data), 3400, "A", false, 2⟩

/-- Concrete session fixture with session id "A" and no user id. -/
def sessA : Session := ⟨"A", none, []⟩

/-- Concrete session fixture whose stored `user_id` is the empty string (a
state reachable by POSTing `userId = ""`, which is falsy in Python). -/
def sessEmptyU : Session := ⟨"s1", some [], []⟩

/-- Concrete session fixture keyed by the external user id "u1". -/
def sessU1 : Session := ⟨"s1", some ("u1".data), []⟩

/-- Concrete upload request fixture carrying the bearer token "tok". -/
def ureqTok : UploadReq :=
  ⟨some "tok", true, ("a.txt".data), ("false".data), ⟨false, []⟩, Except.ok [], 1, true⟩

/-- Concrete upload request fixture: a txt file whose read yields 99
characters. -/
def req99 : UploadReq :=
  ⟨some "A", true, ("notes.txt".data), ("false".data), ⟨false, []⟩,
    Except.ok (List.replicate 99 'a'), 7, true⟩

/-- Concrete upload request fixture: a txt file whose read yields 100
characters. -/
def req100 : UploadReq :=
  ⟨some "A", true, ("notes.txt".data), ("false".data), ⟨false, []⟩,
    Except.ok (List.replicate 100 'a'), 7, true⟩

/-! Lemmas about the whitespace-flattening pipeline of `clean_content`. -/

theorem splitGroups_cons (c : Char) (s : List Char) :
    splitGroups (c :: s) = splitStep c (splitGroups s) := rfl

theorem mem_splitGroups_not_ws :
    ∀ (s : List Char), ∀ w ∈ splitGroups s, ∀ c ∈ w, isPyWs c = false := by
  intro s
  induction s with
  | nil => intro w hw; simp [splitGroups] at hw
  | cons a s ih =>
    intro w hw c hc
    rw [splitGroups_cons] at hw
    unfold splitStep at hw
    by_cases h : isPyWs a
    · rw [if_pos h] at hw
      rcases List.mem_cons.mp hw with rfl | hw
      · simp at hc
      · exact ih w hw c hc
    · rw [if_neg h] at hw
      cases hg : splitGroups s with
      | nil =>
        rw [hg] at hw
        simp at hw
        subst hw
        simp at hc
        subst hc
        simpa using h
      | cons g gs =>
        rw [hg] at hw
        rcases List.mem_cons.mp hw with rfl | hw
        · rcases List.mem_cons.mp hc with rfl | hc
          · simpa using h
          · exact ih g (by rw [hg]; exact List.mem_cons_self g gs) c hc
        · exact ih w (by rw [hg]; exact List.mem_cons_of_mem g hw) c hc

theorem pySplit_good (s : List Char) : goodWords (pySplit s) := by
  intro w hw
  unfold pySplit at hw
  have h := List.mem_filter.mp hw
  refine ⟨?_, mem_splitGroups_not_ws s w h.1⟩
  have := h.2
  simpa [List.isEmpty_eq_false] using this

theorem joinSpace_cons₂ (w w₂ : List Char) (t : List (List Char)) :
    joinSpace (w :: w₂ :: t) = w ++ ' ' :: joinSpace (w₂ :: t) := rfl

theorem join_mem : ∀ (ws : List (List Char)), ∀ c ∈ joinSpace ws,
    c = ' ' ∨ ∃ w ∈ ws, c ∈ w := by
  intro ws
  induction ws with
  | nil => intro c hc; simp [joinSpace] at hc
  | cons w ws ih =>
    intro c hc
    cases ws with
    | nil =>
      right
      exact ⟨w, List.mem_cons_self w [], by simpa [joinSpace] using hc⟩
    | cons w₂ t =>
      rw [joinSpace_cons₂] at hc
      rcases List.mem_append.mp hc with h | h
      · right; exact ⟨w, List.mem_cons_self w _, h⟩
      · rcases List.mem_cons.mp h with rfl | h
        · left; rfl
        · rcases ih c h with h' | ⟨u, hu, hcu⟩
          · left; exact h'
          · right; exact ⟨u, List.mem_cons_of_mem _ hu, hcu⟩

theorem join_no_ws_char (ws : List (List Char)) (hg : goodWords ws) :
    ∀ c ∈ joinSpace ws, isPyWs c = true → c = ' ' := by
  intro c hc hws
  rcases join_mem ws c hc with h | ⟨w, hw, hcw⟩
  · exact h
  · exact absurd ((hg w hw).2 c hcw) (by rw [hws]; simp)

theorem join_ne_nil (ws : List (List Char)) (hg : goodWords ws) (h : ws ≠ []) :
    joinSpace ws ≠ [] := by
  cases ws with
  | nil => exact absurd rfl h
  | cons w t =>
    cases t with
    | nil => exact (hg w (List.mem_cons_self w [])).1
    | cons w₂ t => rw [joinSpace_cons₂]; simp

theorem join_head_not_ws (ws : List (List Char)) (hg : goodWords ws) :
    ∀ c ∈ (joinSpace ws).head?, isPyWs c = false := by
  intro c hc
  cases ws with
  | nil => simp [joinSpace] at hc
  | cons w t =>
    have hw := hg w (List.mem_cons_self w t)
    cases t with
    | nil =>
      have : c ∈ w := List.mem_of_mem_head? (by simpa [joinSpace] using hc)
      exact hw.2 c this
    | cons w₂ t =>
      rw [joinSpace_cons₂, List.head?_append] at hc
      cases w with
      | nil => exact absurd rfl hw.1
      | cons a w₀ =>
        simp at hc
        subst hc
        exact hw.2 a (List.mem_cons_self a w₀)

theorem join_last_not_ws : ∀ (ws : List (List Char)), goodWords ws →
    ∀ c ∈ (joinSpace ws).getLast?, isPyWs c = false := by
  intro ws
  induction ws with
  | nil => intro _ c hc; simp [joinSpace] at hc
  | cons w t ih =>
    intro hg c hc
    have hw := hg w (List.mem_cons_self w t)
    cases t with
    | nil =>
      have : c ∈ w := List.mem_of_mem_getLast? (by simpa [joinSpace] using hc)
      exact hw.2 c this
    | cons w₂ t =>
      have htail : goodWords (w₂ :: t) := fun u hu => hg u (List.mem_cons_of_mem _ hu)
      rw [joinSpace_cons₂, List.getLast?_append, List.getLast?_cons] at hc
      have hne : joinSpace (w₂ :: t) ≠ [] := join_ne_nil _ htail (by simp)
      cases hj : (joinSpace (w₂ :: t)).getLast? with
      | none => exact absurd (List.getLast?_eq_none_iff.mp hj) hne
      | some x =>
        rw [hj] at hc
        simp at hc
        subst hc
        exact ih htail x (by rw [hj]; rfl)

theorem chain_word (w : List Char) (h : ∀ c ∈ w, isPyWs c = false) :
    w.Chain' noSpacePair := by
  refine List.Pairwise.chain' (List.pairwise_of_forall_mem_list ?_)
  intro a ha _ _ hab
  have := h a ha
  rw [hab.1] at this
  simp [isPyWs] at this

theorem chain_join : ∀ (ws : List (List Char)), goodWords ws →
    (joinSpace ws).Chain' noSpacePair := by
  intro ws
  induction ws with
  | nil => intro _; simp [joinSpace]
  | cons w t ih =>
    intro hg
    have hw := hg w (List.mem_cons_self w t)
    cases t with
    | nil => exact chain_word w hw.2
    | cons w₂ t =>
      have htail : goodWords (w₂ :: t) := fun u hu => hg u (List.mem_cons_of_mem _ hu)
      rw [joinSpace_cons₂]
      refine List.chain'_append.mpr ⟨chain_word w hw.2, ?_, ?_⟩
      · refine List.chain'_cons'.mpr ⟨?_, ih htail⟩
        intro y hy hsp
        have := join_head_not_ws _ htail y hy
        rw [hsp.2] at this
        simp [isPyWs] at this
      · intro x hx y hy hsp
        have hxw : x ∈ w := List.mem_of_mem_getLast? hx
        have := hw.2 x hxw
        rw [hsp.1] at this
        simp [isPyWs] at this

theorem dropWhile_head_not (p : Char → Bool) (l : List Char) :
    ∀ c ∈ (l.dropWhile p).head?, p c = false := by
  induction l with
  | nil => simp
  | cons a l ih =>
    intro c hc
    rw [List.dropWhile_cons] at hc
    by_cases h : p a
    · rw [if_pos h] at hc; exact ih c hc
    · rw [if_neg h] at hc
      simp at hc
      subst hc
      simpa using h

theorem suffix_getLast (l₁ l₂ : List Char) (h : l₁ <:+ l₂) (hne : l₁ ≠ []) :
    l₁.getLast? = l₂.getLast? := by
  obtain ⟨t, rfl⟩ := h
  rw [List.getLast?_append]
  cases hl : l₁.getLast? with
  | none => exact absurd (List.getLast?_eq_none_iff.mp hl) hne
  | some x => rfl

theorem pyStrip_head_not (s : List Char) :
    ∀ c ∈ (pyStrip s).head?, isPyWs c = false := by
  intro c hc
  unfold pyStrip at hc
  rw [List.head?_reverse] at hc
  cases hqe : ((s.dropWhile isPyWs).reverse).dropWhile isPyWs with
  | nil => rw [hqe] at hc; simp at hc
  | cons a t =>
    have hqne : ((s.dropWhile isPyWs).reverse).dropWhile isPyWs ≠ [] := by
      rw [hqe]; simp
    have heq := suffix_getLast _ _ (List.dropWhile_suffix isPyWs) hqne
    rw [heq, List.getLast?_reverse] at hc
    exact dropWhile_head_not isPyWs s c hc

theorem pyStrip_last_not (s : List Char) :
    ∀ c ∈ (pyStrip s).getLast?, isPyWs c = false := by
  intro c hc
  unfold pyStrip at hc
  rw [List.getLast?_reverse] at hc
  exact dropWhile_head_not isPyWs _ c hc

theorem chain_suffix {l₁ l₂ : List Char} (h : l₂.Chain' noSpacePair)
    (hs : l₁ <:+ l₂) : l₁.Chain' noSpacePair := by
  obtain ⟨t, rfl⟩ := hs
  exact (List.chain'_append.mp h).2.1

theorem chain_reverse {l : List Char} (h : l.Chain' noSpacePair) :
    l.reverse.Chain' noSpacePair := by
  rw [List.chain'_reverse]
  exact h.imp (fun a b hab => fun hp => hab ⟨hp.2, hp.1⟩)

theorem chain_pyStrip (s : List Char) (h : s.Chain' noSpacePair) :
    (pyStrip s).Chain' noSpacePair := by
  unfold pyStrip
  exact chain_reverse (chain_suffix (chain_reverse (chain_suffix h
    (List.dropWhile_suffix isPyWs))) (List.dropWhile_suffix isPyWs))

theorem no_double_space_of_chain {l : List Char} (h : l.Chain' noSpacePair) :
    ¬ ∃ l₁ l₂, l = l₁ ++ ' ' :: ' ' :: l₂ := by
  rintro ⟨l₁, l₂, rfl⟩
  exact (List.chain'_cons.mp (List.chain'_append.mp h).2.1).1 ⟨rfl, rfl⟩

theorem mem_pyStrip {c : Char} {t : List Char} (hc : c ∈ pyStrip t) : c ∈ t := by
  unfold pyStrip at hc
  rw [List.mem_reverse] at hc
  have h2 := List.Sublist.mem hc (List.dropWhile_sublist isPyWs)
  rw [List.mem_reverse] at h2
  exact List.Sublist.mem h2 (List.dropWhile_sublist isPyWs)

theorem dropWhile_eq_self_of_head {p : Char → Bool} {l : List Char}
    (h : ∀ c ∈ l.head?, p c = false) : l.dropWhile p = l := by
  cases l with
  | nil => rfl
  | cons a l =>
    have ha : p a = false := h a (by simp)
    simp [List.dropWhile_cons, ha]

theorem pyStrip_eq_self {s : List Char}
    (hh : ∀ c ∈ s.head?, isPyWs c = false)
    (hl : ∀ c ∈ s.getLast?, isPyWs c = false) : pyStrip s = s := by
  unfold pyStrip
  rw [dropWhile_eq_self_of_head hh]
  rw [dropWhile_eq_self_of_head (by intro c hc; rw [List.head?_reverse] at hc; exact hl c hc)]
  exact List.reverse_reverse s

theorem replaceCRLF_eq_self : ∀ {s : List Char}, '\r' ∉ s → replaceCRLF s = s := by
  intro s
  induction s with
  | nil => intro _; rfl
  | cons a s ih =>
    intro h
    have ha : a ≠ '\r' := fun e => h (by rw [e]; exact List.mem_cons_self _ _)
    cases s with
    | nil => rfl
    | cons b t =>
      show (if a = '\r' ∧ b = '\n' then '\n' :: replaceCRLF t
            else a :: replaceCRLF (b :: t)) = a :: b :: t
      rw [if_neg (by rintro ⟨rfl, -⟩; exact ha rfl)]
      rw [ih (fun hm => h (List.mem_cons_of_mem a hm))]

theorem replaceTripleNL_eq_self : ∀ {s : List Char}, '\n' ∉ s → replaceTripleNL s = s := by
  intro s
  induction s with
  | nil => intro _; rfl
  | cons a s ih =>
    intro h
    have ha : a ≠ '\n' := fun e => h (by rw [e]; exact List.mem_cons_self _ _)
    cases s with
    | nil => rfl
    | cons b s₂ =>
      cases s₂ with
      | nil => rfl
      | cons c t =>
        show (if a = '\n' ∧ b = '\n' ∧ c = '\n' then '\n' :: '\n' :: replaceTripleNL t
              else a :: replaceTripleNL (b :: c :: t)) = a :: b :: c :: t
        rw [if_neg (by rintro ⟨rfl, -⟩; exact ha rfl)]
        rw [ih (fun hm => h (List.mem_cons_of_mem a hm))]

theorem foldr_splitStep_word_nil :
    ∀ (w : List Char), w ≠ [] → (∀ c ∈ w, isPyWs c = false) →
    List.foldr splitStep [] w = [w] := by
  intro w
  induction w with
  | nil => intro h; exact absurd rfl h
  | cons a w ih =>
    intro _ hnw
    have ha : isPyWs a = false := hnw a (List.mem_cons_self a w)
    cases w with
    | nil => simp [splitStep, ha]
    | cons b t =>
      rw [List.foldr_cons]
      rw [ih (by simp) (fun c hc => hnw c (List.mem_cons_of_mem a hc))]
      simp [splitStep, ha]

theorem foldr_splitStep_word_cons :
    ∀ (w g : List Char) (gs : List (List Char)), w ≠ [] →
    (∀ c ∈ w, isPyWs c = false) →
    List.foldr splitStep (g :: gs) w = (w ++ g) :: gs := by
  intro w
  induction w with
  | nil => intro g gs h; exact absurd rfl h
  | cons a w ih =>
    intro g gs _ hnw
    have ha : isPyWs a = false := hnw a (List.mem_cons_self a w)
    cases w with
    | nil => simp [splitStep, ha]
    | cons b t =>
      rw [List.foldr_cons]
      rw [ih g gs (by simp) (fun c hc => hnw c (List.mem_cons_of_mem a hc))]
      simp [splitStep, ha]

theorem splitGroups_append (l₁ l₂ : List Char) :
    splitGroups (l₁ ++ l₂) = List.foldr splitStep (splitGroups l₂) l₁ :=
  List.foldr_append _ _ _ _

theorem splitGroups_joinSpace : ∀ (ws : List (List Char)), goodWords ws →
    splitGroups (joinSpace ws) = ws := by
  intro ws
  induction ws with
  | nil => intro _; rfl
  | cons w t ih =>
    intro hg
    have hw := hg w (List.mem_cons_self w t)
    cases t with
    | nil => exact foldr_splitStep_word_nil w hw.1 hw.2
    | cons w₂ t =>
      have htail : goodWords (w₂ :: t) := fun u hu => hg u (List.mem_cons_of_mem _ hu)
      rw [joinSpace_cons₂, splitGroups_append]
      have hsp : splitGroups (' ' :: joinSpace (w₂ :: t)) =
          [] :: splitGroups (joinSpace (w₂ :: t)) := by
        rw [splitGroups_cons]
        simp [splitStep, isPyWs]
      rw [hsp, ih htail]
      rw [foldr_splitStep_word_cons w [] _ hw.1 hw.2]
      rw [List.append_nil]

theorem filter_goodWords (ws : List (List Char)) (h : goodWords ws) :
    ws.filter (fun w => !w.isEmpty) = ws :=
  List.filter_eq_self.mpr (fun w hw => by simp [List.isEmpty_eq_false]; exact (h w hw).1)

theorem pySplit_joinSpace (ws : List (List Char)) (h : goodWords ws) :
    pySplit (joinSpace ws) = ws := by
  unfold pySplit
  rw [splitGroups_joinSpace ws h, filter_goodWords ws h]

/-- Claim C10: for every input string, `clean_content` returns a string with
no newline, carriage-return or tab characters, no two consecutive spaces,
and no leading or trailing whitespace, and `clean_content` is idempotent. -/
theorem claim_C10 (s : List Char) :
    ('\n' ∉ clean_content s ∧ '\r' ∉ clean_content s ∧ '\t' ∉ clean_content s) ∧
    (¬ ∃ l₁ l₂, clean_content s = l₁ ++ ' ' :: ' ' :: l₂) ∧
    (∀ c ∈ (clean_content s).head?, isPyWs c = false) ∧
    (∀ c ∈ (clean_content s).getLast?, isPyWs c = false) ∧
    clean_content (clean_content s) = clean_content s := by
  have hg : goodWords (pySplit (replaceTripleNL (replaceCRLF s))) := pySplit_good _
  have hchars : ∀ c ∈ clean_content s, isPyWs c = true → c = ' ' := by
    intro c hc hws
    unfold clean_content at hc
    exact join_no_ws_char _ hg c (mem_pyStrip hc) hws
  refine ⟨⟨?_, ?_, ?_⟩, ?_, pyStrip_head_not _, pyStrip_last_not _, ?_⟩
  · intro hm; exact absurd (hchars _ hm (by decide)) (by decide)
  · intro hm; exact absurd (hchars _ hm (by decide)) (by decide)
  · intro hm; exact absurd (hchars _ hm (by decide)) (by decide)
  · unfold clean_content
    exact no_double_space_of_chain (chain_pyStrip _ (chain_join _ hg))
  · have h1 : pyStrip (joinSpace (pySplit (replaceTripleNL (replaceCRLF s)))) =
        joinSpace (pySplit (replaceTripleNL (replaceCRLF s))) :=
      pyStrip_eq_self (join_head_not_ws _ hg) (join_last_not_ws _ hg)
    have hr : clean_content s = joinSpace (pySplit (replaceTripleNL (replaceCRLF s))) := h1
    have hnr : '\r' ∉ joinSpace (pySplit (replaceTripleNL (replaceCRLF s))) :=
      fun hm => absurd (join_no_ws_char _ hg _ hm (by decide)) (by decide)
    have hnn : '\n' ∉ joinSpace (pySplit (replaceTripleNL (replaceCRLF s))) :=
      fun hm => absurd (join_no_ws_char _ hg _ hm (by decide)) (by decide)
    rw [hr]
    unfold clean_content
    rw [replaceCRLF_eq_self hnr, replaceTripleNL_eq_self hnn, pySplit_joinSpace _ hg, h1]

/-- Witness for claim C10 at a concrete messy input. -/
theorem claim_C10_witness :
    clean_content (clean_content (" a\r\n\nb\tc  ".data)) =
      clean_content (" a\r\n\nb\tc  ".data) ∧
    '\n' ∉ clean_content (" a\r\n\nb\tc  ".data) :=
  ⟨(claim_C10 (" a\r\n\nb\tc  ".data)).2.2.2.2, (claim_C10 (" a\r\n\nb\tc  ".data)).1.1⟩

/-- Claim C9: title derivation is a pure function of the filename — the
filename with its final extension stripped, underscores and dashes replaced
by spaces, truncated to 100 characters; the extracted content is ignored,
and the worked example from the specification holds. -/
theorem claim_C9 :
    (∀ f c₁ c₂ : List Char, generate_title f c₁ = generate_title f c₂) ∧
    (∀ f c : List Char, generate_title f c =
      (replaceChar '-' ' ' (replaceChar '_' ' ' (rsplit1 '.' f).fst)).take 100) ∧
    (∀ f c : List Char, (generate_title f c).length ≤ 100) ∧
    generate_title ("hydroponic_nutrient-guide.pdf".data) [] =
      ("hydroponic nutrient guide".data) := by
  refine ⟨fun f c₁ c₂ => rfl, fun f c => rfl, fun f c => ?_, by decide⟩
  unfold generate_title
  rw [List.length_take]
  exact min_le_left _ _

/-- Counterexample to claim C7: a PDF whose security metadata indicates
encryption on which the upload-path extractor `process_pdf` succeeds — it
performs no encryption check, so it neither fails with an
encrypted-document error nor skips page extraction. -/
theorem claim_C7_counterexample :
    (PdfFile.mk true [Except.ok ("hello world".data)]).is_encrypted = true ∧
    process_pdf (PdfFile.mk true [Except.ok ("hello world".data)]) =
      Except.ok ("hello world".data) := by
  constructor
  · rfl
  · decide

/-- Claim C7 as amended: the dashboard extractor `extract_pdf_text` returns
the fixed encrypted-document sentinel, without touching the pages, whenever
the security metadata indicates encryption; the upload-path extractor
`process_pdf` contains no encryption check — its result is entirely
independent of the encryption flag. -/
theorem claim_C7 :
    (∀ pdf : PdfFile, pdf.is_encrypted = true →
      extract_pdf_text pdf = ENCRYPTED_PDF_MSG) ∧
    (∀ (b₁ b₂ : Bool) (ps : List (Except (List Char) (List Char))),
      process_pdf (PdfFile.mk b₁ ps) = process_pdf (PdfFile.mk b₂ ps)) := by
  constructor
  · intro pdf h
    unfold extract_pdf_text
    rw [h]
    simp
  · intro b₁ b₂ ps
    rfl

/-- Witness for claim C7 at a concrete encrypted input. -/
theorem claim_C7_witness :
    extract_pdf_text (PdfFile.mk true [Except.error ("x".data)]) = ENCRYPTED_PDF_MSG :=
  claim_C7.1 (PdfFile.mk true [Except.error ("x".data)]) rfl

theorem pagesRender_append (xs ys : List (Except (List Char) (List Char))) :
    pagesRender (xs ++ ys) = pagesRender xs ++ pagesRender ys := by
  induction xs with
  | nil => rfl
  | cons p xs ih =>
    show renderPage p ++ pagesRender (xs ++ ys) = (renderPage p ++ pagesRender xs) ++ _
    rw [ih, List.append_assoc]

theorem pdfPagesText_append_ok :
    ∀ (xs : List (Except (List Char) (List Char))) (t : List Char),
    pdfPagesText xs = Except.ok t →
    ∀ ys, pdfPagesText (xs ++ ys) = (pdfPagesText ys).map (fun r => t ++ r) := by
  intro xs
  induction xs with
  | nil =>
    intro t ht ys
    simp [pdfPagesText] at ht
    subst ht
    cases h : pdfPagesText ys with
    | error e => simp [h, Except.map]
    | ok r => simp [h, Except.map]
  | cons p xs ih =>
    intro t ht ys
    cases p with
    | error e => simp [pdfPagesText] at ht
    | ok a =>
      have hx : ∃ t', pdfPagesText xs = Except.ok t' ∧ t = a ++ '\n' :: t' := by
        revert ht
        show (match pdfPagesText xs with
              | Except.error e => Except.error e
              | Except.ok rest => Except.ok (a ++ '\n' :: rest)) = Except.ok t → _
        cases hr : pdfPagesText xs with
        | error e => intro h; cases h
        | ok rest => intro h; cases h; exact ⟨rest, rfl, rfl⟩
      obtain ⟨t', ht', rfl⟩ := hx
      show (match pdfPagesText (xs ++ ys) with
            | Except.error e => Except.error e
            | Except.ok rest => Except.ok (a ++ '\n' :: rest)) = _
      rw [ih t' ht' ys]
      cases h : pdfPagesText ys with
      | error e => simp [Except.map]
      | ok r => simp [Except.map]

/-- Counterexample to claim C8: in the upload-path extractor a single page
whose extraction raises aborts the whole document — the first page's text
is discarded and the generic wrapped error is returned instead of the
remaining pages' text. -/
theorem claim_C8_counterexample :
    process_pdf (PdfFile.mk false
        [Except.ok ("first page text".data), Except.error ("boom".data)]) =
      Except.error ("Failed to process PDF: boom".data) := by
  decide

/-- Claim C8 as amended: in the dashboard extractor `extract_pdf_text` a
failing page never aborts the document — it contributes an error annotation
and all remaining pages' text is still rendered; in the upload-path
extractor `process_pdf` a page that merely yields empty text is treated as
empty and does not abort, but a page whose extraction raises aborts the
whole document. -/
theorem claim_C8 :
    (∀ (ps₁ : List (Except (List Char) (List Char))) (e : List Char) ps₂,
      extract_pdf_text (PdfFile.mk false (ps₁ ++ Except.error e :: ps₂)) =
        pagesRender ps₁ ++
          (("[Error extracting page: ".data) ++ e ++ ("]\n".data)) ++
          pagesRender ps₂) ∧
    (∀ (ps₁ ps₂ : List (Except (List Char) (List Char))) (t₁ t₂ : List Char),
      pdfPagesText ps₁ = Except.ok t₁ → pdfPagesText ps₂ = Except.ok t₂ →
      pdfPagesText (ps₁ ++ Except.ok [] :: ps₂) =
        Except.ok (t₁ ++ '\n' :: t₂)) := by
  constructor
  · intro ps₁ e ps₂
    show pagesRender (ps₁ ++ Except.error e :: ps₂) = _
    rw [pagesRender_append]
    show pagesRender ps₁ ++ (renderPage (Except.error e) ++ pagesRender ps₂) = _
    rw [← List.append_assoc]
    rfl
  · intro ps₁ ps₂ t₁ t₂ h₁ h₂
    have hmid : pdfPagesText (Except.ok [] :: ps₂) =
        Except.ok (([] : List Char) ++ '\n' :: t₂) := by
      show (match pdfPagesText ps₂ with
            | Except.error e => Except.error e
            | Except.ok rest => Except.ok ([] ++ '\n' :: rest)) = _
      rw [h₂]
    rw [pdfPagesText_append_ok ps₁ t₁ h₁, hmid]
    rfl

/-- Witness for claim C8: one annotated failing page between two good pages
in the dashboard extractor, and one empty page between two good pages in
the upload extractor. -/
theorem claim_C8_witness :
    extract_pdf_text (PdfFile.mk false
        [Except.ok ("a".data), Except.error ("bad page".data), Except.ok ("b".data)]) =
      pagesRender [Except.ok ("a".data)] ++
        (("[Error extracting page: ".data) ++ ("bad page".data) ++ ("]\n".data)) ++
        pagesRender [Except.ok ("b".data)] ∧
    pdfPagesText ([Except.ok ("a".data)] ++ Except.ok [] :: [Except.ok ("b".data)]) =
      Except.ok (("a\n".data) ++ '\n' :: ("b\n".data)) :=
  ⟨claim_C8.1 [Except.ok ("a".data)] ("bad page".data) [Except.ok ("b".data)],
   claim_C8.2 [Except.ok ("a".data)] [Except.ok ("b".data)] ("a\n".data) ("b\n".data)
     (by decide) (by decide)⟩

theorem delete_any_iff (did sid : String) (docs : List Document) :
    docs.any (fun d => d.id == did && d.uploaded_by == sid) = true ↔
      ∃ d ∈ docs, d.id = did ∧ d.uploaded_by = sid := by
  rw [List.any_eq_true]
  constructor
  · rintro ⟨d, hd, hp⟩
    rw [Bool.and_eq_true, beq_iff_eq, beq_iff_eq] at hp
    exact ⟨d, hd, hp⟩
  · rintro ⟨d, hd, h1, h2⟩
    refine ⟨d, hd, ?_⟩
    rw [Bool.and_eq_true, beq_iff_eq, beq_iff_eq]
    exact ⟨h1, h2⟩

/-- Claim C2: `deleteDocument` succeeds exactly when a document with the
given id exists and is owned by the requesting session; in every other case
it answers the merged not-found-or-forbidden 404 and the document store is
unchanged. -/
theorem claim_C2 (did sid : String) (sessions : List Session) (docs : List Document) :
    ((delete_document did (some sid) sessions docs).fst = 200 ↔
      ∃ d ∈ docs, d.id = did ∧ d.uploaded_by = sid) ∧
    ((¬ ∃ d ∈ docs, d.id = did ∧ d.uploaded_by = sid) →
      (delete_document did (some sid) sessions docs).fst = 404 ∧
      (delete_document did (some sid) sessions docs).snd = docs) := by
  have hres : delete_document did (some sid) sessions docs =
      if docs.any (fun d => d.id == did && d.uploaded_by == sid) then
        (200, docs.filter (fun d => !(d.id == did)))
      else (404, docs) := rfl
  cases hc : docs.any (fun d => d.id == did && d.uploaded_by == sid) with
  | true =>
    rw [hres, if_pos hc]
    refine ⟨iff_of_true rfl ((delete_any_iff did sid docs).mp hc), ?_⟩
    intro hn
    exact absurd ((delete_any_iff did sid docs).mp hc) hn
  | false =>
    rw [hres, if_neg (by rw [hc]; exact Bool.false_ne_true)]
    constructor
    · refine iff_of_false (by show ¬(404 : Nat) = 200; decide) ?_
      intro hex
      rw [(delete_any_iff did sid docs).mpr hex] at hc
      cases hc
    · intro _
      exact ⟨rfl, rfl⟩

/-- Witness for claim C2: a document owned by "A" can be deleted by "A" but
attempting it as "B" yields 404 and leaves the store unchanged. -/
theorem claim_C2_witness :
    ((delete_document "d1" (some "A") [] [docA]).fst = 200 ↔
      ∃ d ∈ [docA], d.id = "d1" ∧ d.uploaded_by = "A") ∧
    ((delete_document "d1" (some "B") [] [docA]).fst = 404 ∧
      (delete_document "d1" (some "B") [] [docA]).snd = [docA]) :=
  ⟨(claim_C2 "d1" "A" [] [docA]).1,
   (claim_C2 "d1" "B" [] [docA]).2 (by decide)⟩

/-- Claim C3: for every session id and document store, `get_documents`
returns exactly the documents owned by that session or public, ordered by
`created_at` descending, with `totalDocuments` the length of the returned
sequence and `totalSize` the exact sum of `file_size` over the returned
(equivalently, the filtered) set. -/
theorem claim_C3 (sid : String) (sessions : List Session) (docs : List Document) :
    (get_documents (some sid) sessions docs).fst = 200 ∧
    ∃ res, (get_documents (some sid) sessions docs).snd = some res ∧
      (∀ d, d ∈ res.documents ↔ d ∈ docs ∧ (d.uploaded_by = sid ∨ d.is_public = true)) ∧
      res.documents.Pairwise (fun a b => b.created_at ≤ a.created_at) ∧
      res.totalDocuments = res.documents.length ∧
      res.totalSize = (res.documents.map Document.file_size).sum ∧
      res.totalSize = ((docs.filter (docVisible sid)).map Document.file_size).sum := by
  refine ⟨rfl, ⟨_, rfl, ?_, ?_, rfl, rfl, ?_⟩⟩
  · intro d
    have hperm := List.mergeSort_perm (docs.filter (docVisible sid)) newerFirst
    rw [hperm.mem_iff, List.mem_filter]
    unfold docVisible
    rw [Bool.or_eq_true, beq_iff_eq]
  · have htrans : ∀ (a b c : Document), newerFirst a b = true → newerFirst b c = true →
        newerFirst a c = true := by
      intro a b c hab hbc
      simp only [newerFirst, decide_eq_true_eq] at hab hbc ⊢
      omega
    have htotal : ∀ (a b : Document), (newerFirst a b || newerFirst b a) = true := by
      intro a b
      simp only [newerFirst, Bool.or_eq_true, decide_eq_true_eq]
      omega
    have hs : List.Pairwise (fun a b => newerFirst a b = true)
        ((docs.filter (docVisible sid)).mergeSort newerFirst) :=
      List.sorted_mergeSort htrans htotal _
    exact hs.imp (fun h => by simpa only [newerFirst, decide_eq_true_eq] using h)
  · have hperm := (List.mergeSort_perm (docs.filter (docVisible sid)) newerFirst).map
      Document.file_size
    exact hperm.sum_eq

/-- Witness for claim C3 at a concrete store: two documents of sizes 1200
and 3400 visible to session "A". -/
theorem claim_C3_witness :
    (get_documents (some "A") [] [docA, docB]).fst = 200 ∧
    ∃ res, (get_documents (some "A") [] [docA, docB]).snd = some res ∧
      (∀ d, d ∈ res.documents ↔ d ∈ [docA, docB] ∧
        (d.uploaded_by = "A" ∨ d.is_public = true)) ∧
      res.documents.Pairwise (fun a b => b.created_at ≤ a.created_at) ∧
      res.totalDocuments = res.documents.length ∧
      res.totalSize = (res.documents.map Document.file_size).sum ∧
      res.totalSize = (([docA, docB].filter (docVisible "A")).map Document.file_size).sum :=
  claim_C3 "A" [] [docA, docB]

/-- Counterexample to claim C4: a session keyed by the empty-string userId
exists, yet `create_session` with that same userId creates a fresh session
and returns a new id, because the empty string is falsy in Python and the
lookup is skipped. -/
theorem claim_C4_counterexample :
    truthyUserId (some []) = false ∧
    (∃ s ∈ [sessEmptyU], s.user_id = some []) ∧
    (create_session (some []) [] "s2" [sessEmptyU]).fst = "s2" ∧
    (create_session (some []) [] "s2" [sessEmptyU]).fst ≠ sessEmptyU.session_id ∧
    (create_session (some []) [] "s2" [sessEmptyU]).snd.length = 2 := by
  refine ⟨rfl, ⟨sessEmptyU, by simp, rfl⟩, rfl, by decide, rfl⟩

/-- Claim C4 as amended: session creation is idempotent keyed on every
NON-EMPTY userId — if a session for that userId exists, its id is returned
and the store (including stored preferences) is untouched; and two
successive calls with the same non-empty userId always return the same
session id. -/
theorem claim_C4 (u : List Char) (prefs prefs₂ : List Char) (fresh fresh₂ : String)
    (sessions : List Session) (hu : u ≠ []) :
    ((∃ s ∈ sessions, s.user_id = some u) →
      (∃ s ∈ sessions, s.user_id = some u ∧
        (create_session (some u) prefs fresh sessions).fst = s.session_id) ∧
      (create_session (some u) prefs fresh sessions).snd = sessions) ∧
    (create_session (some u) prefs₂ fresh₂
        (create_session (some u) prefs fresh sessions).snd).fst =
      (create_session (some u) prefs fresh sessions).fst := by
  have htr : truthyUserId (some u) = true := by
    simp [truthyUserId, List.isEmpty_eq_false]
    exact hu
  constructor
  · rintro ⟨s, hs, hsu⟩
    cases hf : sessions.find? (fun t => t.user_id == some u) with
    | none =>
      have hnone := List.find?_eq_none.mp hf s hs
      rw [hsu] at hnone
      simp at hnone
    | some t =>
      have ht := List.mem_of_find?_eq_some hf
      have htp := List.find?_some hf
      rw [beq_iff_eq] at htp
      have hcs : create_session (some u) prefs fresh sessions = (t.session_id, sessions) := by
        simp [create_session, htr, hf]
      exact ⟨⟨t, ht, htp, by rw [hcs]⟩, by rw [hcs]⟩
  · cases hf : sessions.find? (fun t => t.user_id == some u) with
    | some t =>
      have hcs : create_session (some u) prefs fresh sessions = (t.session_id, sessions) := by
        simp [create_session, htr, hf]
      rw [hcs]
      simp [create_session, htr, hf]
    | none =>
      have hcs : create_session (some u) prefs fresh sessions =
          (fresh, sessions ++ [⟨fresh, some u, prefs⟩]) := by
        simp [create_session, htr, hf]
      rw [hcs]
      have hf2 : (sessions ++ [(⟨fresh, some u, prefs⟩ : Session)]).find?
          (fun t => t.user_id == some u) = some ⟨fresh, some u, prefs⟩ := by
        rw [List.find?_append, hf]
        simp
      simp [create_session, htr, hf2]

/-- Witness for claim C4: a store holding a session keyed by "u1"; creation
with userId "u1" returns that session's id and leaves the store unchanged. -/
theorem claim_C4_witness :
    ((∃ s ∈ [sessU1], s.user_id = some ("u1".data) ∧
        (create_session (some ("u1".data)) [] "s9" [sessU1]).fst = s.session_id) ∧
      (create_session (some ("u1".data)) [] "s9" [sessU1]).snd = [sessU1]) ∧
    (create_session (some ("u1".data)) [] "s8"
        (create_session (some ("u1".data)) [] "s9" [sessU1]).snd).fst =
      (create_session (some ("u1".data)) [] "s9" [sessU1]).fst :=
  ⟨(claim_C4 ("u1".data) [] [] "s9" "s8" [sessU1] (by decide)).1 (by decide),
   (claim_C4 ("u1".data) [] [] "s9" "s8" [sessU1] (by decide)).2⟩

/-- Counterexample to claim C1: with an EMPTY session store (so the bearer
token "tok" is certainly not a stored session id), listing answers 200 with
a document list and deletion answers 404 — neither answers 401 — while the
upload handler does answer 401 for the very same token. -/
theorem claim_C1_counterexample :
    sessionExists "tok" [] = false ∧
    (get_documents (some "tok") [] [docA]).fst = 200 ∧
    (delete_document "d1" (some "tok") [] [docA]).fst = 404 ∧
    (upload_file ureqTok [] [docA] "x" 0).fst.status = 401 := by
  refine ⟨rfl, rfl, ?_, ?_⟩
  · decide
  · decide

/-- Claim C1 as amended: listing and deletion check only that a bearer
token is present — a missing token yields 401, but session existence is
never consulted (any token value lists with 200, and deletes answer 404 or
200 by document ownership alone); only the upload handler verifies the
bearer session id against the session store and answers 401 when it is
absent. -/
theorem claim_C1 (sid : String) (sessions : List Session) (docs : List Document)
    (did : String) :
    (get_documents none sessions docs).fst = 401 ∧
    (delete_document did none sessions docs).fst = 401 ∧
    (delete_document did none sessions docs).snd = docs ∧
    (get_documents (some sid) sessions docs).fst = 200 ∧
    ((delete_document did (some sid) sessions docs).fst = 404 ∨
      (delete_document did (some sid) sessions docs).fst = 200) ∧
    (∀ (req : UploadReq) (fid : String) (now : Nat),
      req.session_id = some sid → sessionExists sid sessions = false →
      (upload_file req sessions docs fid now).fst.status = 401) := by
  refine ⟨rfl, rfl, rfl, rfl, ?_, ?_⟩
  · have hres : delete_document did (some sid) sessions docs =
        if docs.any (fun d => d.id == did && d.uploaded_by == sid) then
          (200, docs.filter (fun d => !(d.id == did)))
        else (404, docs) := rfl
    cases hc : docs.any (fun d => d.id == did && d.uploaded_by == sid) with
    | true => right; rw [hres, if_pos hc]
    | false => left; rw [hres, if_neg (by rw [hc]; exact Bool.false_ne_true)]
  · intro req fid now hreq hsx
    unfold upload_file
    rw [hreq]
    simp [hsx]

/-- Witness for claim C1: a concrete upload with token "tok" against a
store without that session is rejected with 401. -/
theorem claim_C1_witness :
    (upload_file ureqTok [] [docA] "x" 0).fst.status = 401 :=
  (claim_C1 "tok" [] [docA] "d1").2.2.2.2.2 ureqTok "x" 0 rfl rfl

/-- Claim C5: for an authenticated upload with a present, allowed file whose
extraction succeeds, the minimum-content gate is exact at 100 — normalized
length at most 99 is rejected with the too-short error and no document is
created, normalized length at least 100 passes and the document is
persisted. -/
theorem claim_C5 (req : UploadReq) (sessions : List Session) (docs : List Document)
    (fid : String) (now : Nat) (sid : String) (raw : List Char)
    (h1 : req.session_id = some sid)
    (h2 : sessionExists sid sessions = true)
    (h3 : req.has_file = true)
    (h4 : req.filename.isEmpty = false)
    (h5 : allowed_file req.filename = true)
    (h6 : uploadExtract req = some (Except.ok raw))
    (h7 : req.save_doc_ok = true) :
    ((clean_content raw).length < 100 →
      (upload_file req sessions docs fid now).fst.status = 400 ∧
      (upload_file req sessions docs fid now).fst.error =
        some ("Document content is too short to be useful".data) ∧
      (upload_file req sessions docs fid now).fst.created = none ∧
      (upload_file req sessions docs fid now).snd = docs) ∧
    (100 ≤ (clean_content raw).length →
      (upload_file req sessions docs fid now).fst.status = 200 ∧
      ∃ d, (upload_file req sessions docs fid now).fst.created = some d ∧
        (upload_file req sessions docs fid now).snd = docs ++ [d] ∧
        d.content = clean_content raw ∧ d.uploaded_by = sid) := by
  constructor
  · intro hlt
    have hout : upload_file req sessions docs fid now =
        (⟨400, some ("Document content is too short to be useful".data),
          none, true, false⟩, docs) := by
      unfold upload_file
      rw [h1]
      simp [h2, h3, h4, h5, h6, hlt]
    rw [hout]
    exact ⟨rfl, rfl, rfl, rfl⟩
  · intro hge
    have hnlt : ¬ (clean_content raw).length < 100 := not_lt.mpr hge
    have hout : upload_file req sessions docs fid now =
        (⟨200, none,
          some ⟨fid, generate_title req.filename (clean_content raw), clean_content raw,
            req.filename, uploadFileType req.filename, req.file_size, sid,
            pyLower req.is_public_form == "true".data, now⟩, true, false⟩,
          docs ++ [⟨fid, generate_title req.filename (clean_content raw), clean_content raw,
            req.filename, uploadFileType req.filename, req.file_size, sid,
            pyLower req.is_public_form == "true".data, now⟩]) := by
      unfold upload_file
      rw [h1]
      simp [h2, h3, h4, h5, h6, hnlt, h7]
    rw [hout]
    exact ⟨rfl, ⟨_, rfl, rfl, rfl, rfl⟩⟩

set_option maxRecDepth 10000

/-- Witness for claim C5: a 99-character text upload is rejected with the
too-short error and nothing is stored; a 100-character one is accepted and
persisted. -/
theorem claim_C5_witness :
    ((upload_file req99 [sessA] [] "d9" 3).fst.status = 400 ∧
      (upload_file req99 [sessA] [] "d9" 3).fst.error =
        some ("Document content is too short to be useful".data) ∧
      (upload_file req99 [sessA] [] "d9" 3).fst.created = none ∧
      (upload_file req99 [sessA] [] "d9" 3).snd = []) ∧
    ((upload_file req100 [sessA] [] "d9" 3).fst.status = 200 ∧
      ∃ d, (upload_file req100 [sessA] [] "d9" 3).fst.created = some d ∧
        (upload_file req100 [sessA] [] "d9" 3).snd = [] ++ [d] ∧
        d.content = clean_content (List.replicate 100 'a') ∧ d.uploaded_by = "A") :=
  ⟨(claim_C5 req99 [sessA] [] "d9" 3 "A" (List.replicate 99 'a')
      rfl (by decide) rfl (by decide) (by decide) (by decide) rfl).1 (by decide),
   (claim_C5 req100 [sessA] [] "d9" 3 "A" (List.replicate 100 'a')
      rfl (by decide) rfl (by decide) (by decide) (by decide) rfl).2 (by decide)⟩

/-- Claim C6: once the temporary upload artifact has been written, it is
removed before the request completes, on every exit path of the upload
handler. -/
theorem claim_C6 (req : UploadReq) (sessions : List Session) (docs : List Document)
    (fid : String) (now : Nat)
    (h : (upload_file req sessions docs fid now).fst.temp_written = true) :
    (upload_file req sessions docs fid now).fst.temp_remains = false := by
  clear h
  unfold upload_file
  cases req.session_id with
  | none => rfl
  | some sid =>
    dsimp only
    repeat' first | rfl | split

/-- Witness for claim C6 at a successful concrete upload (the temporary
file was written and does not remain). -/
theorem claim_C6_witness :
    (upload_file req100 [sessA] [] "d9" 3).fst.temp_written = true ∧
    (upload_file req100 [sessA] [] "d9" 3).fst.temp_remains = false :=
  ⟨by decide, claim_C6 req100 [sessA] [] "d9" 3 (by decide)⟩
